import Mathlib

/-!
Shallow embedding of the OTRSP client library (protocol codec, IO-task actor,
caller handles and device facade) together with proofs of the specified
properties.  Wire bytes are modelled as `List Char`: every byte sequence the
codec manipulates is ASCII, where `String::from_utf8_lossy` is the identity
embedding of bytes into characters.
-/

set_option maxHeartbeats 1000000
set_option maxRecDepth 16000

namespace Otrsp

/-- Modelled from the spec: the error enumeration lives in `error.rs`, which is
declared in `lib.rs` but absent from the tree.  Its variants are reconstructed
from the spec's error taxonomy and from the constructor applications present in
`protocol.rs`, `io.rs`, `device.rs` and `builder.rs`.  The operating-system
payload of the `Io` variant is irrelevant to every claim and is dropped. -/
inductive Error where
  | InvalidParameter (msg : String)
  | Protocol (msg : String)
  | Timeout
  | Io
  | NotConnected
  | Transport (msg : String)
  deriving DecidableEq

instance {ε α : Type} [DecidableEq ε] [DecidableEq α] :
    DecidableEq (Except ε α)
  | .ok a, .ok b =>
    if h : a = b then .isTrue (by rw [h]) else .isFalse (by simp [h])
  | .ok _, .error _ => .isFalse (by simp)
  | .error _, .ok _ => .isFalse (by simp)
  | .error a, .error b =>
    if h : a = b then .isTrue (by rw [h]) else .isFalse (by simp [h])

/-- From `types.rs`: which radio (1 or 2). -/
inductive Radio where
  | Radio1
  | Radio2
  deriving DecidableEq

/-- From `types.rs`: receive audio routing mode. -/
inductive RxMode where
  | Mono
  | Stereo
  | ReverseStereo
  deriving DecidableEq

/-- From `event.rs`: events emitted by the library when commands succeed. -/
inductive SwitchEvent where
  | TxChanged (radio : Radio)
  | RxChanged (radio : Radio) (mode : RxMode)
  | AuxChanged (port value : Nat)
  | Connected
  | Disconnected
  deriving DecidableEq

/-- The CR/LF pattern of `trim_end_matches(['\r', '\n'])` in `protocol.rs`. -/
def isCrLf (c : Char) : Bool := c = '\r' || c = '\n'

/-- The Unicode White_Space property, the character set used by Rust's
`char::is_whitespace` and hence by `str::trim`. -/
def rustIsWhitespace (c : Char) : Bool :=
  let n := c.toNat
  (9 ≤ n && n ≤ 13) || n = 32 || n = 133 || n = 160 || n = 5760 ||
    (8192 ≤ n && n ≤ 8202) || n = 8232 || n = 8233 || n = 8239 || n = 8287 ||
    n = 12288

/-- Rust `str::trim_end_matches` with a character-set pattern: repeatedly
remove matching characters from the end. -/
def trimEndMatches (p : Char → Bool) (s : List Char) : List Char :=
  (s.reverse.dropWhile p).reverse

/-- Rust `str::trim`: remove whitespace from both ends. -/
def rustTrim (s : List Char) : List Char :=
  trimEndMatches rustIsWhitespace (s.dropWhile rustIsWhitespace)

/-- Rust `str::strip_prefix`: `some` of the remainder when `pre` leads `s`. -/
def dropPre : List Char → List Char → Option (List Char)
  | [], s => some s
  | _ :: _, [] => none
  | p :: ps, c :: cs => if p = c then dropPre ps cs else none

/-- Rust `u8::from_str` (`value_str.parse::<u8>()`): an optional leading plus
sign followed by one or more ASCII digits; the digits must evaluate to a value
in `0..=255` (the reference implementation uses checked arithmetic, so
overflow is an error, never a wrap). -/
def parseU8 (s : List Char) : Option Nat :=
  let ds := match s with
    | '+' :: rest => rest
    | _ => s
  if ds.isEmpty then none
  else if ds.all (fun c => 48 ≤ c.toNat && c.toNat ≤ 57) then
    let v := ds.foldl (fun a c => a * 10 + (c.toNat - 48)) 0
    if v ≤ 255 then some v else none
  else none

/-- Embeds `protocol.rs::encode_tx`. -/
def encode_tx : Radio → List Char
  | .Radio1 => "TX1\r".data
  | .Radio2 => "TX2\r".data

/-- Embeds `protocol.rs::encode_rx`. -/
def encode_rx (radio : Radio) (mode : RxMode) : List Char :=
  let num := match radio with
    | Radio.Radio1 => "1".data
    | Radio.Radio2 => "2".data
  let tail := match mode with
    | RxMode.Mono => "".data
    | RxMode.Stereo => "S".data
    | RxMode.ReverseStereo => "R".data
  "RX".data ++ num ++ tail ++ "\r".data

/-- Embeds `protocol.rs::encode_aux`: `AUX{port}{value}\r`, decimal and
variable-width; a port above 9 is rejected before producing any bytes. -/
def encode_aux (port value : Nat) : Except Error (List Char) :=
  if port > 9 then
    .error (.InvalidParameter ("AUX port must be 0-9, got " ++
      (Nat.toDigits 10 port).asString))
  else
    .ok ("AUX".data ++ Nat.toDigits 10 port ++ Nat.toDigits 10 value ++
      "\r".data)

/-- Embeds `protocol.rs::encode_query_name`. -/
def encode_query_name : List Char := "?NAME\r".data

/-- Embeds `protocol.rs::encode_query_aux`. -/
def encode_query_aux (port : Nat) : Except Error (List Char) :=
  if port > 9 then
    .error (.InvalidParameter ("AUX port must be 0-9, got " ++
      (Nat.toDigits 10 port).asString))
  else
    .ok ("?AUX".data ++ Nat.toDigits 10 port ++ "\r".data)

/-- Embeds `protocol.rs::encode_raw`: caller text with a CR appended, no
validation. -/
def encode_raw (cmd : List Char) : List Char := cmd ++ "\r".data

/-- Embeds `protocol.rs::parse_name_response`: strip trailing CR/LF, trim, strip a
leading `NAME` token when present (re-trimming after the strip), otherwise
return the trimmed text unchanged.  Total: never fails. -/
def parse_name_response (bytes : List Char) : List Char :=
  let s := rustTrim (trimEndMatches isCrLf bytes)
  match dropPre "NAME".data s with
  | some r => rustTrim r
  | none => s

/-- Embeds `protocol.rs::parse_aux_response`: strip trailing CR/LF and trim, require
an `AUX` lead-in, read one ASCII-digit port, parse the remainder as a `u8`
value.  The byte-level `rest.as_bytes()[0]` test of the source coincides with
this character-level test: a non-ASCII first character has first byte
`≥ 0x80`, which fails the source's `checked_sub(b'0').filter(p <= 9)` exactly
as the character fails the digit range test here. -/
def parse_aux_response (bytes : List Char) : Except Error (Nat × Nat) :=
  let s := rustTrim (trimEndMatches isCrLf bytes)
  match dropPre "AUX".data s with
  | none => .error (.Protocol ("expected AUX prefix, got: " ++ s.asString))
  | some rest =>
    match rest with
    | [] => .error (.Protocol "AUX response missing port and value")
    | c :: valueChars =>
      if 48 ≤ c.toNat ∧ c.toNat ≤ 57 then
        match parseU8 valueChars with
        | some v => .ok (c.toNat - 48, v)
        | none =>
          .error (.Protocol ("invalid AUX value: " ++ valueChars.asString))
      else
        .error (.Protocol ("invalid AUX port digit: " ++ String.mk [c]))


/-- From `io.rs`: outcome of the `mpsc::Sender::send` of a request (the channel is
open and accepts the request, or it is closed because the actor is gone). -/
inductive SendOutcome where
  | sent
  | channelClosed
  deriving DecidableEq

/-- From `io.rs`: outcome of awaiting the oneshot reply under the outer deadline of
`IoHandle::command` / `command_read`: the actor fulfilled the slot in time,
the slot was dropped unfulfilled, or the outer deadline elapsed first. -/
inductive AwaitOutcome (α : Type) where
  | reply (r : Except Error α)
  | dropped
  | elapsed

/-- The outer submit-to-reply deadline of `IoHandle::command` and
`command_read` (`Duration::from_secs(5)` in `io.rs`). -/
def outerCommandDeadlineMs : Nat := 5000

/-- The actor's inner per-read deadline (`Duration::from_secs(1)` applied to
`read_line` in `io.rs::handle_request`). -/
def innerReadDeadlineMs : Nat := 1000

/-- Embeds `io.rs::IoHandle::command`: send a `Write` request, then await the reply
under the outer deadline. -/
def ioCommand (send : SendOutcome) (awt : AwaitOutcome Unit) :
    Except Error Unit :=
  match send with
  | .channelClosed => .error .NotConnected
  | .sent =>
    match awt with
    | .reply r => r
    | .dropped => .error .NotConnected
    | .elapsed => .error .Timeout

/-- Embeds `io.rs::IoHandle::command_read`: send a `WriteAndRead` request, then await
the line reply under the outer deadline. -/
def ioCommandRead (send : SendOutcome) (awt : AwaitOutcome (List Char)) :
    Except Error (List Char) :=
  match send with
  | .channelClosed => .error .NotConnected
  | .sent =>
    match awt with
    | .reply r => r
    | .dropped => .error .NotConnected
    | .elapsed => .error .Timeout

/-- From `io.rs`: outcome of `port.write_all` for one request. -/
inductive WriteOutcome where
  | ok
  | ioErr
  deriving DecidableEq

/-- From `io.rs`: outcome of `tokio::time::timeout(1s, read_line(port))` for one
`WriteAndRead` request: a line arrived in time, the stream failed, or the
inner read deadline expired. -/
inductive ReadOutcome where
  | line (l : List Char)
  | ioErr
  | timeout
  deriving DecidableEq

/-- From `io.rs`: how the port behaves for one handled request: whether the
`write_all` succeeds, and what the deadline-guarded `read_line` produces
(ignored for `Write`-only requests, which perform no read). -/
structure PortBehavior where
  write : WriteOutcome
  read : ReadOutcome
  deriving DecidableEq

/-- Embeds `io.rs::Request`, with the oneshot reply slots left implicit (replies are
returned values of the model). -/
inductive Request where
  | Write (data : List Char)
  | WriteAndRead (data : List Char)
  | Shutdown
  deriving DecidableEq

/-- The actor's loop-local mutable state (`io.rs::io_loop` lines 130-131). -/
structure IoState where
  disconnected_sent : Bool
  needs_drain : Bool
  deriving DecidableEq

/-- Observable port-side actions of the actor, in program order. -/
inductive Action where
  | drain
  | write (data : List Char)
  | read
  deriving DecidableEq

/-- The value placed into a request's reply slot. -/
inductive ReplyVal where
  | unit (r : Except Error Unit)
  | line (r : Except Error (List Char))
  deriving DecidableEq

/-- Result of one `handle_request` call: new state, the reply sent, events
emitted on the bus, and port actions performed (in order). -/
structure StepResult where
  state : IoState
  reply : ReplyVal
  events : List SwitchEvent
  actions : List Action
  deriving DecidableEq

/-- Embeds `io.rs::handle_request` (lines 168-231).  For a `Write`: write, on failure
emit `Disconnected` once (guarded by `disconnected_sent`) and reply with the
I/O error.  For a `WriteAndRead`: drain first when `needs_drain` is set (and
clear the flag), then write; on write failure emit-once and reply with the
I/O error; otherwise read under the inner deadline: a line fulfills the reply,
a stream failure emits-once and replies with the I/O error, a deadline expiry
replies `Timeout` and sets `needs_drain`.  The `Shutdown` arm (dead code from
the loop's viewpoint, which intercepts shutdowns) just acknowledges. -/
def handle_request (req : Request) (pb : PortBehavior) (s : IoState) :
    StepResult :=
  match req with
  | .Write data =>
    match pb.write with
    | .ok => ⟨s, .unit (.ok ()), [], [.write data]⟩
    | .ioErr =>
      if s.disconnected_sent then
        ⟨s, .unit (.error .Io), [], [.write data]⟩
      else
        ⟨{ s with disconnected_sent := true }, .unit (.error .Io),
          [.Disconnected], [.write data]⟩
  | .WriteAndRead data =>
    let acts0 : List Action := if s.needs_drain then [.drain] else []
    let s1 : IoState := { s with needs_drain := false }
    match pb.write with
    | .ioErr =>
      if s1.disconnected_sent then
        ⟨s1, .line (.error .Io), [], acts0 ++ [.write data]⟩
      else
        ⟨{ s1 with disconnected_sent := true }, .line (.error .Io),
          [.Disconnected], acts0 ++ [.write data]⟩
    | .ok =>
      match pb.read with
      | .line l => ⟨s1, .line (.ok l), [], acts0 ++ [.write data, .read]⟩
      | .ioErr =>
        if s1.disconnected_sent then
          ⟨s1, .line (.error .Io), [], acts0 ++ [.write data, .read]⟩
        else
          ⟨{ s1 with disconnected_sent := true }, .line (.error .Io),
            [.Disconnected], acts0 ++ [.write data, .read]⟩
      | .timeout =>
        ⟨{ s1 with needs_drain := true }, .line (.error .Timeout), [],
          acts0 ++ [.write data, .read]⟩
  | .Shutdown => ⟨s, .unit (.ok ()), [], []⟩

/-- One resolved arm of the actor's biased select (`io.rs::io_loop` lines
133-158): the cancellation token fired, the request channel closed, or a
request arrived (paired with how the port behaves while handling it). -/
inductive LoopStep where
  | cancelled
  | chanClosed
  | recv (req : Request) (pb : PortBehavior)
  deriving DecidableEq

/-- The observable outcome of a (finite script of a) run of the loop. -/
structure RunResult where
  events : List SwitchEvent
  actions : List Action
  replies : List ReplyVal
  final : IoState
  terminated : Bool
  deriving DecidableEq

/-- The loop's exit path (`io.rs` lines 161-163): emit `Disconnected` unless
one was already sent. -/
def exitEvents (s : IoState) : List SwitchEvent :=
  if s.disconnected_sent then [] else [.Disconnected]

/-- Embeds `io.rs::io_loop`: consume select outcomes in order; cancellation, channel
closure and a `Shutdown` request (acknowledged first) break the loop, which
then runs the exit path.  A script that runs out without a terminator models
an actor still parked on its queue: `terminated = false` and no exit event. -/
def io_loop : List LoopStep → IoState → RunResult
  | [], s => ⟨[], [], [], s, false⟩
  | step :: rest, s =>
    match step with
    | .cancelled => ⟨exitEvents s, [], [], s, true⟩
    | .chanClosed => ⟨exitEvents s, [], [], s, true⟩
    | .recv .Shutdown _ => ⟨exitEvents s, [], [.unit (.ok ())], s, true⟩
    | .recv req pb =>
      let r := handle_request req pb s
      let k := io_loop rest r.state
      ⟨r.events ++ k.events, r.actions ++ k.actions, r.reply :: k.replies,
        k.final, k.terminated⟩

/-- Number of `Disconnected` events in a bus trace. -/
def countD : List SwitchEvent → Nat
  | [] => 0
  | e :: rest => (if e = SwitchEvent.Disconnected then 1 else 0) + countD rest

/-- One attempted read inside the drain: the attempt resolves after
`elapsedPred + 1` milliseconds (time is discrete in milliseconds, and a
completing read consumes at least one; a read that never completes is
modelled by an elapsed time beyond the window) and yields `bytes` bytes
(0 models both EOF and a read error, which fall to the match's default
arm and break, exactly as a timeout does). -/
structure ReadAttempt where
  elapsedPred : Nat
  bytes : Nat
  deriving DecidableEq

/-- Milliseconds after which the attempt resolves. -/
def ReadAttempt.elapsed (a : ReadAttempt) : Nat := a.elapsedPred + 1

/-- The drain's bounded total window (`Duration::from_millis(200)`). -/
def drainWindowMs : Nat := 200

/-- The drain's per-attempt idle cutoff (`Duration::from_millis(20)`). -/
def drainIdleCutoffMs : Nat := 20

/-- Whether `tokio::time::timeout(t, port.read(..))` resolves as
`Ok(Ok(n))` with `n > 0`: the read completes strictly before the timeout
fires and yields at least one byte. -/
def attemptProductive (a : ReadAttempt) (t : Nat) : Bool :=
  decide (a.elapsed < t) && decide (0 < a.bytes)

/-- Embeds `io.rs::drain_stale` with time explicit.  `oracle k` is the behaviour of
the `k`-th read attempt; `now` is the time consumed from the window so far.
Returns the final time and the index of the attempt on which the loop
stopped (equivalently, how many productive attempts were consumed). -/
def drain_stale (oracle : Nat → ReadAttempt) (now k : Nat) : Nat × Nat :=
  let remaining := drainWindowMs - now
  if h : remaining = 0 then (now, k)
  else
    let t := min remaining drainIdleCutoffMs
    let a := oracle k
    if hp : attemptProductive a t then
      drain_stale oracle (now + a.elapsed) (k + 1)
    else (now, k)
termination_by drainWindowMs - now
decreasing_by
  simp only [attemptProductive, Bool.and_eq_true, decide_eq_true_eq,
    ReadAttempt.elapsed] at hp
  have hw : drainWindowMs = 200 := rfl
  have hc : drainIdleCutoffMs = 20 := rfl
  have he : (oracle k).elapsed = (oracle k).elapsedPred + 1 := rfl
  omega

/-- Embeds `device.rs::OtrspDevice::set_aux`: encode (a codec error returns
synchronously, submitting nothing to the actor), submit through
`IoHandle::command`, and on success publish `AuxChanged`.  Returns the
caller's result, the requests submitted to the actor's queue, and the events
published by the facade. -/
def set_aux (port value : Nat) (send : SendOutcome)
    (awt : AwaitOutcome Unit) :
    Except Error Unit × List (List Char) × List SwitchEvent :=
  match encode_aux port value with
  | .error e => (.error e, [], [])
  | .ok data =>
    let submitted : List (List Char) :=
      match send with
      | .channelClosed => []
      | .sent => [data]
    match ioCommand send awt with
    | .error e => (.error e, submitted, [])
    | .ok _ => (.ok (), submitted, [SwitchEvent.AuxChanged port value])

/-- Embeds `device.rs::OtrspDevice::query_aux`: encode (a codec error returns
synchronously, submitting nothing), submit through `IoHandle::command_read`,
parse the response, and reject a parsed port different from the requested
one with a `Protocol` error naming both. -/
def query_aux (port : Nat) (send : SendOutcome)
    (awt : AwaitOutcome (List Char)) :
    Except Error Nat × List (List Char) :=
  match encode_query_aux port with
  | .error e => (.error e, [])
  | .ok data =>
    let submitted : List (List Char) :=
      match send with
      | .channelClosed => []
      | .sent => [data]
    match ioCommandRead send awt with
    | .error e => (.error e, submitted)
    | .ok response =>
      match parse_aux_response response with
      | .error e => (.error e, submitted)
      | .ok (returned_port, value) =>
        if returned_port ≠ port then
          (.error (.Protocol ("AUX port mismatch: requested port " ++
            (Nat.toDigits 10 port).asString ++ ", got port " ++
            (Nat.toDigits 10 returned_port).asString)), submitted)
        else
          (.ok value, submitted)

/-- The wire bytes produced by a successful `encode_aux port value`. -/
def auxWire (port value : Nat) : List Char :=
  "AUX".data ++ Nat.toDigits 10 port ++ Nat.toDigits 10 value ++ "\r".data

lemma auxWire_roundtrip :
    ∀ p < 10, ∀ v < 256, parse_aux_response (auxWire p v) = .ok (p, v) := by
  decide

/-- C10: `parse_aux_response` accepts value fields with leading zeros or a
leading plus sign (`AUX1007` parses to `(1, 7)`, and so does `AUX1+7`), so
re-encoding a parsed pair can produce bytes different from the original
parseable line: encode-after-parse is not the identity, only
parse-after-encode is. -/
theorem C10_encode_after_parse_not_identity :
    parse_aux_response "AUX1007\r".data = .ok (1, 7) ∧
    parse_aux_response "AUX1+7\r".data = .ok (1, 7) ∧
    encode_aux 1 7 = .ok "AUX17\r".data ∧
    "AUX17\r".data ≠ "AUX1007\r".data := by
  decide

/-- C3 counterexample: when the outer submit-to-reply deadline of a caller's
await expires (the request was accepted but the reply slot was never
fulfilled in time), `IoHandle::command_read` returns `Timeout`
(`io.rs` line 72), not `NotConnected` as the claim states. -/
theorem C3_counterexample :
    ioCommandRead .sent .elapsed = .error .Timeout ∧
    ioCommandRead .sent .elapsed ≠ .error .NotConnected := by
  constructor
  · rfl
  · intro h
    simp [ioCommandRead] at h

/-- C3 amended: outer-deadline expiry on `command` and `command_read` yields
a `Timeout` outcome; a dropped (never-fulfilled) reply slot yields
`NotConnected`; and the actor's inner read deadline (1 s) is strictly
shorter than the outer submit-to-reply deadline (5 s). -/
theorem C3_amended_outer_deadline :
    ioCommand .sent .elapsed = .error .Timeout ∧
    ioCommandRead .sent .elapsed = .error .Timeout ∧
    ioCommand .sent .dropped = .error .NotConnected ∧
    ioCommandRead .sent .dropped = .error .NotConnected ∧
    innerReadDeadlineMs < outerCommandDeadlineMs := by
  refine ⟨rfl, rfl, rfl, rfl, by decide⟩

/-- C7: `parse_name_response` never fails (it is a total function into
strings); it strips trailing CR/LF and surrounding whitespace, strips a
leading `NAME` token when present (trimming again afterwards), and returns
the trimmed text unchanged when the `NAME` token is absent; the three
specified examples hold. -/
theorem C7_parse_name_response (bytes : List Char) :
    (∀ r, dropPre "NAME".data (rustTrim (trimEndMatches isCrLf bytes)) =
        some r → parse_name_response bytes = rustTrim r) ∧
    (dropPre "NAME".data (rustTrim (trimEndMatches isCrLf bytes)) = none →
      parse_name_response bytes = rustTrim (trimEndMatches isCrLf bytes)) ∧
    parse_name_response "NAMESO2RDUINO\r".data = "SO2RDUINO".data ∧
    parse_name_response "RigSelect Pro\r".data = "RigSelect Pro".data ∧
    parse_name_response "NAME  YCCC SO2R  \r".data = "YCCC SO2R".data := by
  refine ⟨?_, ?_, by decide, by decide, by decide⟩
  · intro r h
    simp [parse_name_response, h]
  · intro h
    simp [parse_name_response, h]

theorem C7_witness :
    parse_name_response "SO2RDUINO\r".data =
      rustTrim (trimEndMatches isCrLf "SO2RDUINO\r".data) :=
  (C7_parse_name_response "SO2RDUINO\r".data).2.1 (by decide)

/-- C5: for every port above 9, `encode_aux` (for any value) and
`encode_query_aux` fail with `InvalidParameter`, and the device operations
`set_aux` and `query_aux` return that same error synchronously: nothing is
submitted to the actor's queue, so zero bytes reach the wire, for every
possible channel and reply behaviour. -/
theorem C5_port_out_of_range (port value : Nat) (hp : 9 < port)
    (send : SendOutcome) (awtU : AwaitOutcome Unit)
    (awtL : AwaitOutcome (List Char)) :
    encode_aux port value = .error (.InvalidParameter
      ("AUX port must be 0-9, got " ++ (Nat.toDigits 10 port).asString)) ∧
    encode_query_aux port = .error (.InvalidParameter
      ("AUX port must be 0-9, got " ++ (Nat.toDigits 10 port).asString)) ∧
    set_aux port value send awtU = (.error (.InvalidParameter
      ("AUX port must be 0-9, got " ++ (Nat.toDigits 10 port).asString)),
      [], []) ∧
    query_aux port send awtL = (.error (.InvalidParameter
      ("AUX port must be 0-9, got " ++ (Nat.toDigits 10 port).asString)),
      []) := by
  refine ⟨?_, ?_, ?_, ?_⟩ <;>
    simp [encode_aux, encode_query_aux, set_aux, query_aux, hp]

theorem C5_witness :
    encode_aux 10 0 = .error (.InvalidParameter
      ("AUX port must be 0-9, got " ++ (Nat.toDigits 10 10).asString)) ∧
    encode_query_aux 10 = .error (.InvalidParameter
      ("AUX port must be 0-9, got " ++ (Nat.toDigits 10 10).asString)) ∧
    set_aux 10 0 .sent (.reply (.ok ())) = (.error (.InvalidParameter
      ("AUX port must be 0-9, got " ++ (Nat.toDigits 10 10).asString)),
      [], []) ∧
    query_aux 10 .sent (.reply (.ok "AUX00\r".data)) =
      (.error (.InvalidParameter
        ("AUX port must be 0-9, got " ++ (Nat.toDigits 10 10).asString)),
      []) :=
  C5_port_out_of_range 10 0 (by decide) .sent (.reply (.ok ()))
    (.reply (.ok "AUX00\r".data))

/-- C2: for every port in `[0, 9]` and value in `[0, 255]`,
`parse_aux_response` applied to the bytes produced by `encode_aux` succeeds
with exactly `(port, value)`, and re-encoding that parsed pair yields bytes
identical to the original encoding. -/
theorem C2_aux_roundtrip (port value : Nat) (hp : port ≤ 9)
    (hv : value ≤ 255) :
    ∃ bytes, encode_aux port value = .ok bytes ∧
      ∃ p v, parse_aux_response bytes = .ok (p, v) ∧ (p, v) = (port, value) ∧
        encode_aux p v = .ok bytes := by
  have henc : encode_aux port value = .ok (auxWire port value) := by
    simp [encode_aux, auxWire, Nat.not_lt.mpr hp]
  exact ⟨auxWire port value, henc, port, value,
    auxWire_roundtrip port (by omega) value (by omega), rfl, henc⟩

theorem C2_witness :
    ∃ bytes, encode_aux 2 255 = .ok bytes ∧
      ∃ p v, parse_aux_response bytes = .ok (p, v) ∧ (p, v) = (2, 255) ∧
        encode_aux p v = .ok bytes :=
  C2_aux_roundtrip 2 255 (by decide) (by decide)

/-- C8: when the response line to `query_aux port` parses to `(q, v)` with
`q ≠ port`, the operation fails with a `Protocol` error whose message names
both the requested and the received port; when `q = port` it returns the
parsed value. -/
theorem C8_port_mismatch (port q v : Nat) (resp : List Char) (hp : port ≤ 9)
    (hparse : parse_aux_response resp = .ok (q, v)) :
    (q ≠ port → (query_aux port .sent (.reply (.ok resp))).1 =
      .error (.Protocol ("AUX port mismatch: requested port " ++
        (Nat.toDigits 10 port).asString ++ ", got port " ++
        (Nat.toDigits 10 q).asString))) ∧
    (q = port → (query_aux port .sent (.reply (.ok resp))).1 = .ok v) := by
  have henc : encode_query_aux port =
      .ok ("?AUX".data ++ Nat.toDigits 10 port ++ "\r".data) := by
    simp [encode_query_aux, Nat.not_lt.mpr hp]
  constructor
  · intro hne
    simp [query_aux, henc, ioCommandRead, hparse, hne]
  · intro heq
    simp [query_aux, henc, ioCommandRead, hparse, heq]

theorem C8_witness :
    (query_aux 1 .sent (.reply (.ok "AUX24\r".data))).1 =
      .error (.Protocol ("AUX port mismatch: requested port " ++
        (Nat.toDigits 10 1).asString ++ ", got port " ++
        (Nat.toDigits 10 2).asString)) :=
  (C8_port_mismatch 1 2 4 "AUX24\r".data (by decide) (by decide)).1
    (by decide)

/-- C6 counterexample: the claim characterizes success as requiring an `AUX`
lead-in directly after stripping trailing CR/LF, but the source additionally
trims surrounding whitespace (`protocol.rs` line 83), so the line
`" AUX14\r"` parses successfully to `(1, 4)` even though, after stripping
only trailing CR/LF, it does not start with `AUX`. -/
theorem C6_counterexample :
    parse_aux_response " AUX14\r".data = .ok (1, 4) ∧
    dropPre "AUX".data (trimEndMatches isCrLf " AUX14\r".data) = none := by
  decide

/-- C6 amended: `parse_aux_response` succeeds with `(p, v)` exactly when,
after stripping trailing CR/LF and trimming surrounding whitespace, the line
has an `AUX` lead-in, the first remaining character is an ASCII digit 0-9
(the port), and the rest parses as an unsigned value in `[0, 255]` (Rust
`u8` syntax); every failure is a `Protocol` error; and the four specified
examples behave as stated. -/
theorem C6_amended_parse_aux (bytes : List Char) :
    (∀ p v, parse_aux_response bytes = .ok (p, v) ↔
      ∃ rest, dropPre "AUX".data (rustTrim (trimEndMatches isCrLf bytes)) =
          some rest ∧
        ∃ c cs, rest = c :: cs ∧ 48 ≤ c.toNat ∧ c.toNat ≤ 57 ∧
          p = c.toNat - 48 ∧ parseU8 cs = some v) ∧
    (∀ e, parse_aux_response bytes = .error e → ∃ msg, e = .Protocol msg) ∧
    parse_aux_response "AUX14\r".data = .ok (1, 4) ∧
    parse_aux_response "AUX2255\r\n".data = .ok (2, 255) ∧
    parse_aux_response "AUXabc\r".data =
      .error (.Protocol "invalid AUX port digit: a") ∧
    parse_aux_response "NOTAUX\r".data =
      .error (.Protocol "expected AUX prefix, got: NOTAUX") := by
  refine ⟨?_, ?_, by decide, by decide, by decide, by decide⟩
  · intro p v
    cases hdp : dropPre "AUX".data (rustTrim (trimEndMatches isCrLf bytes))
      with
    | none => simp [parse_aux_response, hdp]
    | some rest =>
      cases rest with
      | nil => simp [parse_aux_response, hdp]
      | cons c cs =>
        by_cases hd : 48 ≤ c.toNat ∧ c.toNat ≤ 57
        · cases hu : parseU8 cs with
          | none =>
            simp [parse_aux_response, hdp, hd, hu]
          | some v0 =>
            simp [parse_aux_response, hdp, hd, hu, and_assoc]
            exact fun _ => eq_comm
        · simp [parse_aux_response, hdp, hd, and_assoc]
          intro h1 h2
          exact absurd ⟨h1, h2⟩ hd
  · intro e he
    revert he
    cases hdp : dropPre "AUX".data (rustTrim (trimEndMatches isCrLf bytes))
      with
    | none =>
      simp [parse_aux_response, hdp]
      intro he
      exact ⟨_, he.symm⟩
    | some rest =>
      cases rest with
      | nil =>
        simp [parse_aux_response, hdp]
        intro he
        exact ⟨_, he.symm⟩
      | cons c cs =>
        by_cases hd : 48 ≤ c.toNat ∧ c.toNat ≤ 57
        · cases hu : parseU8 cs with
          | none =>
            simp [parse_aux_response, hdp, hd, hu]
            intro he
            exact ⟨_, he.symm⟩
          | some v0 =>
            simp [parse_aux_response, hdp, hd, hu]
        · simp [parse_aux_response, hdp, hd]
          intro he
          exact ⟨_, he.symm⟩

theorem C6_witness :
    ∃ rest,
      dropPre "AUX".data (rustTrim (trimEndMatches isCrLf "AUX14\r".data)) =
        some rest ∧
      ∃ c cs, rest = c :: cs ∧ 48 ≤ c.toNat ∧ c.toNat ≤ 57 ∧
        (1 : Nat) = c.toNat - 48 ∧ parseU8 cs = some 4 :=
  ((C6_amended_parse_aux "AUX14\r".data).1 1 4).mp (by decide)

@[simp] lemma countD_nil : countD [] = 0 := rfl

@[simp] lemma countD_cons (e : SwitchEvent) (rest : List SwitchEvent) :
    countD (e :: rest) =
      (if e = SwitchEvent.Disconnected then 1 else 0) + countD rest := rfl

lemma countD_append (a b : List SwitchEvent) :
    countD (a ++ b) = countD a + countD b := by
  induction a with
  | nil => simp
  | cons e as ih =>
    simp [ih]
    omega

lemma handle_request_countD (req : Request) (pb : PortBehavior)
    (s : IoState) :
    countD (handle_request req pb s).events +
        (if s.disconnected_sent then 1 else 0) =
      if (handle_request req pb s).state.disconnected_sent then 1 else 0 := by
  obtain ⟨w, rd⟩ := pb
  obtain ⟨ds, nd⟩ := s
  cases req <;> cases w <;> cases rd <;> cases ds <;> cases nd <;>
    simp [handle_request, countD]

lemma io_loop_countD (steps : List LoopStep) (s : IoState) :
    ((io_loop steps s).terminated = false →
      countD (io_loop steps s).events +
          (if s.disconnected_sent then 1 else 0) =
        if (io_loop steps s).final.disconnected_sent then 1 else 0) ∧
    ((io_loop steps s).terminated = true →
      countD (io_loop steps s).events +
          (if s.disconnected_sent then 1 else 0) = 1) := by
  induction steps generalizing s with
  | nil => simp [io_loop]
  | cons step rest ih =>
    cases step with
    | cancelled =>
      cases hds : s.disconnected_sent <;>
        simp [io_loop, exitEvents, countD, hds]
    | chanClosed =>
      cases hds : s.disconnected_sent <;>
        simp [io_loop, exitEvents, countD, hds]
    | recv req pb =>
      cases req with
      | Shutdown =>
        cases hds : s.disconnected_sent <;>
          simp [io_loop, exitEvents, countD, hds]
      | Write data =>
        have h1 := handle_request_countD (.Write data) pb s
        have h2 := ih (handle_request (.Write data) pb s).state
        obtain ⟨h2f, h2t⟩ := h2
        simp only [io_loop, countD_append]
        constructor
        · intro ht
          have hk := h2f ht
          omega
        · intro ht
          have hk := h2t ht
          omega
      | WriteAndRead data =>
        have h1 := handle_request_countD (.WriteAndRead data) pb s
        have h2 := ih (handle_request (.WriteAndRead data) pb s).state
        obtain ⟨h2f, h2t⟩ := h2
        simp only [io_loop, countD_append]
        constructor
        · intro ht
          have hk := h2f ht
          omega
        · intro ht
          have hk := h2t ht
          omega

/-- C1: every terminated actor lifetime carries exactly one `Disconnected`
event on the bus, no matter how many requests fail with I/O errors and no
matter whether termination comes from a `Shutdown` request, channel closure
or cancellation: the first I/O failure (or, when none occurred, the loop
exit path) emits it and the `disconnected_sent` guard suppresses every later
emission. -/
theorem C1_disconnected_exactly_once (steps : List LoopStep)
    (h : (io_loop steps ⟨false, false⟩).terminated = true) :
    countD (io_loop steps ⟨false, false⟩).events = 1 := by
  have hc := (io_loop_countD steps ⟨false, false⟩).2 h
  simpa using hc

theorem C1_witness :
    (io_loop [LoopStep.recv (.Write "TX1\r".data) ⟨.ioErr, .timeout⟩,
        LoopStep.recv (.WriteAndRead "?NAME\r".data) ⟨.ok, .ioErr⟩,
        LoopStep.recv .Shutdown ⟨.ok, .timeout⟩]
      ⟨false, false⟩).terminated = true ∧
    countD (io_loop [LoopStep.recv (.Write "TX1\r".data) ⟨.ioErr, .timeout⟩,
        LoopStep.recv (.WriteAndRead "?NAME\r".data) ⟨.ok, .ioErr⟩,
        LoopStep.recv .Shutdown ⟨.ok, .timeout⟩]
      ⟨false, false⟩).events = 1 :=
  ⟨by decide, C1_disconnected_exactly_once _ (by decide)⟩

/-- C4: a `WriteAndRead` whose read deadline expires fulfills the caller's
reply with `Timeout`, emits no event, and sets `needs_drain`; when
`needs_drain` is set, the next `WriteAndRead` runs the stale-byte drain
before its write and the flag ends up cleared unless that read times out
again; a `Write`-only request never drains. -/
theorem C4_timeout_sets_drain (data : List Char) (pb : PortBehavior)
    (s : IoState) :
    (pb.write = .ok → pb.read = .timeout →
      handle_request (.WriteAndRead data) pb s =
        ⟨⟨s.disconnected_sent, true⟩, .line (.error .Timeout), [],
          (if s.needs_drain then [.drain] else []) ++
            [.write data, .read]⟩) ∧
    (s.needs_drain = true →
      (handle_request (.WriteAndRead data) pb s).actions.take 2 =
        [.drain, .write data]) ∧
    (handle_request (.WriteAndRead data) pb s).state.needs_drain =
      decide (pb.write = .ok ∧ pb.read = .timeout) ∧
    Action.drain ∉ (handle_request (.Write data) pb s).actions := by
  obtain ⟨w, rd⟩ := pb
  obtain ⟨ds, nd⟩ := s
  refine ⟨?_, ?_, ?_, ?_⟩ <;>
    cases w <;> cases rd <;> cases ds <;> cases nd <;>
      simp [handle_request]

theorem C4_witness :
    handle_request (.WriteAndRead "?AUX1\r".data) ⟨.ok, .timeout⟩
        ⟨false, true⟩ =
      ⟨⟨false, true⟩, .line (.error .Timeout), [],
        [.drain, .write "?AUX1\r".data, .read]⟩ ∧
    (handle_request (.WriteAndRead "?AUX1\r".data) ⟨.ok, .timeout⟩
        ⟨false, true⟩).actions.take 2 =
      [.drain, .write "?AUX1\r".data] :=
  ⟨by
    have h := (C4_timeout_sets_drain "?AUX1\r".data ⟨.ok, .timeout⟩
      ⟨false, true⟩).1 rfl rfl
    simpa using h,
   (C4_timeout_sets_drain "?AUX1\r".data ⟨.ok, .timeout⟩ ⟨false, true⟩).2.1
     rfl⟩

lemma drain_stale_spec (oracle : Nat → ReadAttempt) :
    ∀ m now k, drainWindowMs - now ≤ m → now ≤ drainWindowMs →
      (drain_stale oracle now k).1 ≤ drainWindowMs ∧
      (drain_stale oracle now k).2 ≤ k + (drainWindowMs - now) ∧
      (drainWindowMs - (drain_stale oracle now k).1 = 0 ∨
        attemptProductive (oracle (drain_stale oracle now k).2)
          (min (drainWindowMs - (drain_stale oracle now k).1)
            drainIdleCutoffMs) = false) ∧
      ∀ j, k ≤ j → j < (drain_stale oracle now k).2 →
        0 < (oracle j).bytes ∧ (oracle j).elapsed < drainIdleCutoffMs := by
  intro m
  induction m with
  | zero =>
    intro now k hm hle
    have h0 : drainWindowMs - now = 0 := Nat.le_zero.mp hm
    rw [drain_stale, dif_pos h0]
    refine ⟨hle, ?_, Or.inl h0, ?_⟩
    · show k ≤ k + (drainWindowMs - now)
      omega
    · intro j hkj hjn
      have hjk : j < k := hjn
      omega
  | succ m ih =>
    intro now k hm hle
    by_cases h0 : drainWindowMs - now = 0
    · rw [drain_stale, dif_pos h0]
      refine ⟨hle, ?_, Or.inl h0, ?_⟩
      · show k ≤ k + (drainWindowMs - now)
        omega
      · intro j hkj hjn
        have hjk : j < k := hjn
        omega
    · rw [drain_stale, dif_neg h0]
      by_cases hp : attemptProductive (oracle k)
          (min (drainWindowMs - now) drainIdleCutoffMs) = true
      · rw [dif_pos hp]
        have hav : (oracle k).elapsed <
              min (drainWindowMs - now) drainIdleCutoffMs ∧
            0 < (oracle k).bytes := by
          simpa [attemptProductive] using hp
        have he1 : 1 ≤ (oracle k).elapsed := Nat.le_add_left 1 _
        have hminl := Nat.min_le_left (drainWindowMs - now) drainIdleCutoffMs
        have hminr :=
          Nat.min_le_right (drainWindowMs - now) drainIdleCutoffMs
        have hnow' : now + (oracle k).elapsed ≤ drainWindowMs := by omega
        have hm' : drainWindowMs - (now + (oracle k).elapsed) ≤ m := by omega
        obtain ⟨a1, a2, a3, a4⟩ :=
          ih (now + (oracle k).elapsed) (k + 1) hm' hnow'
        refine ⟨a1, by omega, a3, ?_⟩
        intro j hkj hjn
        rcases Nat.eq_or_lt_of_le hkj with heq | hlt2
        · subst heq
          exact ⟨hav.2, by omega⟩
        · exact a4 j hlt2 hjn
      · rw [dif_neg hp]
        refine ⟨hle, ?_, Or.inr ?_, ?_⟩
        · show k ≤ k + (drainWindowMs - now)
          omega
        · simpa using hp
        · intro j hkj hjn
          have hjk : j < k := hjn
          omega

/-- C9: the stale-byte drain always terminates within the bounded total
window: for every sequence of read outcomes it consumes at most
`drainWindowMs` of the window and at most that many attempts, it stops
either because the window elapsed or because the attempt it stopped on
failed to yield bytes within `min(remaining, idle cutoff)`, and every
attempt it consumed before stopping yielded bytes within the idle cutoff,
so the actor never blocks indefinitely in the drain. -/
theorem C9_drain_bounded (oracle : Nat → ReadAttempt) :
    (drain_stale oracle 0 0).1 ≤ drainWindowMs ∧
    (drain_stale oracle 0 0).2 ≤ drainWindowMs ∧
    (drainWindowMs - (drain_stale oracle 0 0).1 = 0 ∨
      attemptProductive (oracle (drain_stale oracle 0 0).2)
        (min (drainWindowMs - (drain_stale oracle 0 0).1)
          drainIdleCutoffMs) = false) ∧
    ((List.range (drain_stale oracle 0 0).2).all (fun j =>
      decide (0 < (oracle j).bytes) &&
        decide ((oracle j).elapsed < drainIdleCutoffMs))) = true := by
  obtain ⟨a1, a2, a3, a4⟩ :=
    drain_stale_spec oracle drainWindowMs 0 0 (by omega) (by omega)
  refine ⟨a1, by omega, a3, ?_⟩
  rw [List.all_eq_true]
  intro j hj
  have hj2 := List.mem_range.mp hj
  have := a4 j (Nat.zero_le j) hj2
  simp [this.1, this.2]

theorem C9_witness :
    (drain_stale (fun _ => ⟨0, 0⟩) 0 0).1 ≤ drainWindowMs :=
  (C9_drain_bounded (fun _ => ⟨0, 0⟩)).1

end Otrsp
